import Mathlib

/-!
Shallow embedding of `src/tagfs.py` (a FUSE tag filesystem).

The backing directory is flat; every backing entry is a (base name, inode)
binding, and every inode may carry a raw `user.tags` xattr value.  Tag
directories are synthetic: the registry `tags` maps a tag name to a frozen
stat snapshot, persisted in the backing root xattr `user.tagfs.tags`.

Modelling conventions:
  * Python byte strings are `List B`, where `B.chr c` is the encoding of one
    character and `B.bad n` is a byte sequence on which UTF-8 decoding fails.
  * Python exceptions are the error side of `Except PyErr`; Python side
    effects persist across a raised exception, so every operation returns
    `Except PyErr alpha × St` (result or exception, plus the final state).
  * `FuseOSError(e)` is `PyErr.fuse e`; an `IOError`/`OSError` coming out of a
    syscall is `PyErr.ioerror e`; `UnicodeDecodeError` (a `ValueError`, not an
    `EnvironmentError`) is `PyErr.unicodeErr`; a `NameError` is
    `PyErr.nameErr`; `literal_eval`'s failure is `PyErr.valueErr`.
  * `Tagfs.__call__` catches `EnvironmentError` and re-raises
    `FuseOSError(err.errno)`: that is the `call` wrapper below.
  * OS-generated data (the stat minted by `mkdir`, the inode number of a new
    backing entry) enter as explicit parameters.
  * Python dict semantics (insertion order, in-place overwrite) is modelled
    by association lists with `dinsert` / `dremove` / `dlookup`.
-/

deriving instance DecidableEq for Except

namespace Tagfs

/-- Errno values used by tagfs. -/
inductive Errno
  | ENOENT | EEXIST | EPERM | EISDIR | ENOTEMPTY | ENOTDIR | ENODATA | ENOTSUPP
deriving DecidableEq

/-- Python exceptions that can escape a tagfs operation. -/
inductive PyErr
  | fuse (e : Errno)     -- FuseOSError
  | ioerror (e : Errno)  -- IOError / OSError raised by a syscall
  | nameErr              -- NameError (undefined variable)
  | unicodeErr           -- UnicodeDecodeError (a ValueError)
  | valueErr             -- ValueError from literal_eval
deriving DecidableEq

/-- One unit of a Python byte string: either the encoding of a character, or a
byte sequence that fails UTF-8 decoding. -/
inductive B
  | chr (c : Char)
  | bad (n : Nat)
deriving DecidableEq

/-- A Python byte string. -/
abbrev ByteStr := List B

/-- `s.encode('utf-8')`. -/
def encodeStr (s : String) : ByteStr := s.data.map B.chr

/-- `bs.decode('utf-8')`: fails iff an undecodable byte occurs. -/
def decodeStr : ByteStr → Option String
  | [] => some ""
  | B.chr c :: bs => (decodeStr bs).map (fun s => String.mk (c :: s.data))
  | B.bad _ :: _ => none

/-- `bs.split(b',')` on a byte string. -/
def splitComma : ByteStr → List ByteStr
  | [] => [[]]
  | b :: bs =>
    if b = B.chr ',' then [] :: splitComma bs
    else
      match splitComma bs with
      | [] => [[b]]
      | p :: ps => (b :: p) :: ps

/-- First-match association-list lookup (Python dict lookup). -/
def dlookup [DecidableEq κ] (k : κ) : List (κ × α) → Option α
  | [] => none
  | (k2, v) :: d => if k2 = k then some v else dlookup k d

/-- `k in d` for a Python dict. -/
def dmem [DecidableEq κ] (k : κ) (d : List (κ × α)) : Bool := (dlookup k d).isSome

/-- `d[k] = v` for a Python dict: overwrite in place, else append. -/
def dinsert [DecidableEq κ] (k : κ) (v : α) : List (κ × α) → List (κ × α)
  | [] => [(k, v)]
  | (k2, v2) :: d => if k2 = k then (k2, v) :: d else (k2, v2) :: dinsert k v d

/-- `del d[k]` for a Python dict (keys are unique, remove first match). -/
def dremove [DecidableEq κ] (k : κ) : List (κ × α) → List (κ × α)
  | [] => []
  | (k2, v2) :: d => if k2 = k then d else (k2, v2) :: dremove k d

/-- The key list of a Python dict, in iteration order. -/
def dkeys (d : List (κ × α)) : List κ := d.map Prod.fst

/-- `l.split(c)` on the character list of a Python string (keeps empty
pieces, like Python `str.split` with an explicit separator). -/
def splitChar (c : Char) : List Char → List (List Char)
  | [] => [[]]
  | a :: rest =>
    if a = c then [] :: splitChar c rest
    else
      match splitChar c rest with
      | [] => [[a]]
      | p :: ps => (a :: p) :: ps

/-- `s.split(c)` as a list of strings. -/
def splitStr (c : Char) (s : String) : List String :=
  (splitChar c s.data).map String.mk

/-- `path.rstrip('/')`. -/
def rstripSlash (s : String) : String :=
  String.mk ((s.data.reverse.dropWhile (fun c => c = '/')).reverse)

/-- `base(path) = path.split('/')[-1]`. -/
def base (path : String) : String := (splitStr '/' path).getLastD ""

/-- `path2tags(path) = set(path.rstrip('/').split('/')[1:-1])`. -/
def path2tags (path : String) : Finset String :=
  (((splitStr '/' (rstripSlash path)).drop 1).dropLast).toFinset

/-- The stat dict stored per tag directory (see `stat` in the source). -/
structure Stat where
  st_atime : Int
  st_ctime : Int
  st_gid : Int
  st_mode : Int
  st_mtime : Int
  st_nlink : Int
  st_size : Int
  st_uid : Int
deriving DecidableEq

/-- A backing inode: only its `user.tags` xattr matters to tagfs. -/
structure Inode where
  userTags : Option ByteStr
deriving DecidableEq

/-- Global state: the in-memory registry `self.tags`, the flat backing
directory (name bindings and inode table, so hard links share an inode), and
the backing root's `user.tagfs.tags` xattr. -/
structure St where
  tags : List (String × Stat)
  names : List (String × Nat)
  inodes : List (Nat × Inode)
  rootXattr : Option String
deriving DecidableEq

/-- Serialization of one stat snapshot inside `str(self.tags)`. -/
def serializeStat (s : Stat) : String :=
  String.intercalate "," [toString s.st_atime, toString s.st_ctime, toString s.st_gid,
    toString s.st_mode, toString s.st_mtime, toString s.st_nlink, toString s.st_size,
    toString s.st_uid]

/-- Parse a decimal digit string (accumulator form). -/
def parseDigitsAux (acc : Nat) : List Char → Option Nat
  | [] => some acc
  | c :: rest => if c.isDigit then parseDigitsAux (acc * 10 + (c.toNat - 48)) rest else none

/-- Parse an optionally negated decimal integer; `none` on anything else. -/
def parseInt (s : String) : Option Int :=
  match s.data with
  | [] => none
  | '-' :: rest =>
    match rest with
    | [] => none
    | _ => (parseDigitsAux 0 rest).map (fun n => -(n : Int))
  | l => (parseDigitsAux 0 l).map (fun n => (n : Int))

/-- Inverse of `serializeStat` (the `literal_eval` direction). -/
def parseStat (s : String) : Option Stat :=
  match (splitStr ',' s).mapM parseInt with
  | some [a, c, g, m, mt, n, sz, u] => some ⟨a, c, g, m, mt, n, sz, u⟩
  | _ => none

/-- `str(self.tags)`: a round-tripping serialization of the registry. -/
def serializeReg (d : List (String × Stat)) : String :=
  String.intercalate ";" (d.map (fun kv => kv.1 ++ "=" ++ serializeStat kv.2))

/-- Parse one `key=stat` component of a serialized registry. -/
def parseEntry (s : String) : Option (String × Stat) :=
  match splitStr '=' s with
  | [k, v] => (parseStat v).map (fun st => (k, st))
  | _ => none

/-- `literal_eval` of a serialized registry. -/
def parseReg (s : String) : Option (List (String × Stat)) :=
  if s = "" then some [] else (splitStr ';' s).mapM parseEntry

/-- A fixed iteration order for a Python set of tags (the source joins a set,
whose order is unspecified; the model picks the sorted order). -/
def sortTags (ts : Finset String) : List String :=
  Quot.liftOn ts.val (fun l => List.insertionSort (· ≤ ·) l)
    (fun l1 l2 h => List.eq_of_perm_of_sorted
      (((List.perm_insertionSort _ l1).trans h).trans (List.perm_insertionSort _ l2).symm)
      (List.sorted_insertionSort _ l1) (List.sorted_insertionSort _ l2))

/-- `','.join(tags).encode('utf-8')`. -/
def joinTags (l : List String) : ByteStr := encodeStr (String.intercalate "," l)

/-- `set_tags_xattr(path, tags)`: write the `user.tags` xattr of the backing
entry `n`; `IOError(ENOENT)` when no such entry exists. -/
def set_tags_xattr (st : St) (n : String) (l : List String) : Except PyErr Unit × St :=
  match dlookup n st.names with
  | none => (Except.error (PyErr.ioerror Errno.ENOENT), st)
  | some i =>
    match dlookup i st.inodes with
    | none => (Except.error (PyErr.ioerror Errno.ENOENT), st)
    | some _ => (Except.ok (), { st with inodes := dinsert i ⟨some (joinTags l)⟩ st.inodes })

/-- `xattr2tags(path)`:
read and decode `user.tags`.  A missing file makes both the `get` and the
recovery `set` raise `IOError(ENOENT)`, which propagates.  A present file with
a missing xattr is initialized to the empty encoding and yields the empty set.
An undecodable value raises `UnicodeDecodeError` (NOT caught: only `IOError`
is). -/
def xattr2tags (st : St) (n : String) : Except PyErr (Finset String) × St :=
  match dlookup n st.names with
  | none => (Except.error (PyErr.ioerror Errno.ENOENT), st)
  | some i =>
    match dlookup i st.inodes with
    | none => (Except.error (PyErr.ioerror Errno.ENOENT), st)
    | some ind =>
      match ind.userTags with
      | none =>
        (Except.ok ∅, { st with inodes := dinsert i ⟨some (joinTags [])⟩ st.inodes })
      | some raw =>
        match (splitComma raw).mapM decodeStr with
        | none => (Except.error PyErr.unicodeErr, st)
        | some l => (Except.ok (if l.toFinset = {""} then ∅ else l.toFinset), st)

/-- The pure observer for a file's decoded tag set: `none` when the raw xattr
value does not decode; a missing xattr reads as the empty set (it would be
auto-initialized). -/
def decodedTags (ind : Inode) : Option (Finset String) :=
  match ind.userTags with
  | none => some ∅
  | some raw =>
    match (splitComma raw).mapM decodeStr with
    | none => none
    | some l => some (if l.toFinset = {""} then ∅ else l.toFinset)

/-- Decoded tag set of the backing entry named `n`. -/
def fileTags (st : St) (n : String) : Option (Finset String) :=
  match dlookup n st.names with
  | none => none
  | some i =>
    match dlookup i st.inodes with
    | none => none
    | some ind => decodedTags ind

/-- `tags_operation(path, files_fn, tags_fn)`: compute the effective tag set
(the registry itself when `base path` is a tag, else the file's decoded tags),
require `path2tags path` to be a subset of it, then dispatch to the tag branch
or the file branch. -/
def tags_operation (st : St) (path : String)
    (files_fn : St → Except PyErr α × St)
    (tags_fn : St → Except PyErr α × St) :
    Except PyErr α × St :=
  if dmem (base path) st.tags then
    if path2tags path ⊆ (dkeys st.tags).toFinset then tags_fn st
    else (Except.error (PyErr.fuse Errno.ENOENT), st)
  else
    match xattr2tags st (base path) with
    | (Except.error e, st2) => (Except.error e, st2)
    | (Except.ok ts, st2) =>
      if path2tags path ⊆ ts then files_fn st2
      else (Except.error (PyErr.fuse Errno.ENOENT), st2)

/-- The default `tags_fn` (`notsup`): `FuseOSError(ENOTSUP)`. -/
def notsup_fn : St → Except PyErr α × St :=
  fun st => (Except.error (PyErr.fuse Errno.ENOTSUPP), st)

/-- `update_fs_xattr`: persist `str(self.tags)` in `user.tagfs.tags`. -/
def update_fs_xattr (st : St) : St := { st with rootXattr := some (serializeReg st.tags) }

/-- `os.rename('./o', './n')`: rebind the name, overwriting any target. -/
def osRename (st : St) (o n : String) : Except PyErr Unit × St :=
  match dlookup o st.names with
  | none => (Except.error (PyErr.ioerror Errno.ENOENT), st)
  | some i => (Except.ok (), { st with names := dinsert n i (dremove o st.names) })

/-- Creation of a fresh backing entry (no `user.tags` xattr yet). -/
def osNewEntry (st : St) (n : String) (ino : Nat) : St :=
  { st with names := dinsert n ino st.names, inodes := dinsert ino ⟨none⟩ st.inodes }

/-- `mkdir(path, mode)`: require `path2tags path` to name known tags; create a
throwaway backing directory just to mint a stat (`fresh`), which fails with
`EEXIST` when a backing entry with that base name exists; store the stat under
the tag; remove the throwaway; persist the registry. -/
def mkdir (st : St) (path : String) (fresh : Stat) : Except PyErr Unit × St :=
  if path2tags path ⊆ (dkeys st.tags).toFinset then
    if dmem (base path) st.names then (Except.error (PyErr.ioerror Errno.EEXIST), st)
    else
      (Except.ok (), update_fs_xattr { st with tags := dinsert (base path) fresh st.tags })
  else (Except.error (PyErr.fuse Errno.ENOENT), st)

/-- `any(base(path) in xattr2tags('./' + f) for f in os.listdir('.'))`,
threading the state through each (possibly initializing) xattr read. -/
def anyHasTag (t : String) (ns : List String) (st : St) : Except PyErr Bool × St :=
  match ns with
  | [] => (Except.ok false, st)
  | n :: rest =>
    match xattr2tags st n with
    | (Except.error e, st2) => (Except.error e, st2)
    | (Except.ok ts, st2) =>
      if t ∈ ts then (Except.ok true, st2) else anyHasTag t rest st2

/-- `rmdir(path)`.  File branch: backing `os.rmdir` on a flat non-directory
entry (`ENOTDIR`, or `ENOENT` when absent).  Tag branch: `ENOTEMPTY` when some
backing file still bears the tag, else delete the tag and persist. -/
def rmdir (st : St) (path : String) : Except PyErr Unit × St :=
  tags_operation st path
    (fun st2 =>
      if dmem (base path) st2.names then (Except.error (PyErr.ioerror Errno.ENOTDIR), st2)
      else (Except.error (PyErr.ioerror Errno.ENOENT), st2))
    (fun st2 =>
      match anyHasTag (base path) (dkeys st2.names) st2 with
      | (Except.error e, st3) => (Except.error e, st3)
      | (Except.ok true, st3) => (Except.error (PyErr.fuse Errno.ENOTEMPTY), st3)
      | (Except.ok false, st3) =>
        (Except.ok (), update_fs_xattr { st3 with tags := dremove (base path) st3.tags }))

/-- The set the source calls `tags` in `readdir`: empty at the root, else
`path2tags(path) | {base(path)}`. -/
def readdirT (path : String) : Finset String :=
  if path = "/" then ∅ else path2tags path ∪ {base path}

/-- The file half of `readdir`: keep each listed name whose decoded tag set
contains `T`, threading the (possibly initializing) xattr reads in order. -/
def filterFiles (T : Finset String) (ns : List String) (st : St) :
    Except PyErr (List String) × St :=
  match ns with
  | [] => (Except.ok [], st)
  | n :: rest =>
    match xattr2tags st n with
    | (Except.error e, st2) => (Except.error e, st2)
    | (Except.ok ts, st2) =>
      match filterFiles T rest st2 with
      | (Except.error e, st3) => (Except.error e, st3)
      | (Except.ok l, st3) => (Except.ok (if T ⊆ ts then n :: l else l), st3)

/-- `readdir(path, fh)`:
`['.', '..'] + list(set(self.tags) - tags) + [files whose tag set ⊇ tags]`. -/
def readdir (st : St) (path : String) : Except PyErr (List String) × St :=
  match filterFiles (readdirT path) (dkeys st.names) st with
  | (Except.error e, st2) => (Except.error e, st2)
  | (Except.ok fl, st2) =>
    (Except.ok ("." :: ".." ::
      (((dkeys st.tags).filter (fun t => decide (t ∉ readdirT path))) ++ fl)), st2)

/-- `link(link, source)`: dispatched on `source`.  File branch: backing
`os.link` (hard link, sharing the inode), then stamp the new name with
`path2tags(link)`.  Tag branch: `EPERM`. -/
def link (st : St) (lnk source : String) : Except PyErr Unit × St :=
  tags_operation st source
    (fun st2 =>
      match dlookup (base source) st2.names with
      | none => (Except.error (PyErr.ioerror Errno.ENOENT), st2)
      | some i =>
        if dmem (base lnk) st2.names then (Except.error (PyErr.ioerror Errno.EEXIST), st2)
        else
          let st3 := { st2 with names := dinsert (base lnk) i st2.names }
          match set_tags_xattr st3 (base lnk) (sortTags (path2tags lnk)) with
          | (Except.error e, st4) => (Except.error e, st4)
          | (Except.ok _, st4) => (Except.ok (), st4))
    (fun st2 => (Except.error (PyErr.fuse Errno.EPERM), st2))

/-- `unlink(path)`.  The file branch executes `os.unlink(real(source))`, but
`source` is an undefined name in `unlink`: evaluating it raises `NameError`
before any syscall runs.  Tag branch: `EISDIR`. -/
def unlink (st : St) (path : String) : Except PyErr Unit × St :=
  tags_operation st path
    (fun st2 => (Except.error PyErr.nameErr, st2))
    (fun st2 => (Except.error (PyErr.fuse Errno.EISDIR), st2))

/-- `symlink(link, source)`: the guard evaluates
`path2tags(link).issubset(xattr2tags(real(link)))`, reading the xattr of the
link name being created; then a tag-name collision is `EEXIST`, else
`os.symlink` (which is `EEXIST` whenever the backing entry exists) followed by
stamping `path2tags(link)`. -/
def symlink (st : St) (lnk source : String) (ino : Nat) : Except PyErr Unit × St :=
  if lnk = "" then (Except.error (PyErr.fuse Errno.ENOENT), st)
  else if source = "" then (Except.error (PyErr.fuse Errno.ENOENT), st)
  else
    match xattr2tags st (base lnk) with
    | (Except.error e, st2) => (Except.error e, st2)
    | (Except.ok ts, st2) =>
      if path2tags lnk ⊆ ts then
        if dmem (base lnk) st2.tags then (Except.error (PyErr.fuse Errno.EEXIST), st2)
        else
          if dmem (base lnk) st2.names then (Except.error (PyErr.ioerror Errno.EEXIST), st2)
          else
            let st3 := osNewEntry st2 (base lnk) ino
            match set_tags_xattr st3 (base lnk) (sortTags (path2tags lnk)) with
            | (Except.error e, st4) => (Except.error e, st4)
            | (Except.ok _, st4) => (Except.ok (), st4)
      else (Except.error (PyErr.fuse Errno.ENOENT), st2)

/-- `rename(old, new)`.  File branch: backing rename of the base names, then
set the new name's tags to `(xattr2tags(real(new)) - to_remove) | to_add`.
Tag branch: `self.tags[base(new)] = self.tags.pop(base(old))` — note: no
`update_fs_xattr` call. -/
def rename (st : St) (oldP newP : String) : Except PyErr Unit × St :=
  tags_operation st oldP
    (fun st2 =>
      match osRename st2 (base oldP) (base newP) with
      | (Except.error e, st3) => (Except.error e, st3)
      | (Except.ok _, st3) =>
        match xattr2tags st3 (base newP) with
        | (Except.error e, st4) => (Except.error e, st4)
        | (Except.ok cur, st4) =>
          match set_tags_xattr st4 (base newP)
              (sortTags ((cur \ (path2tags oldP \ path2tags newP))
                ∪ (path2tags newP \ path2tags oldP))) with
          | (Except.error e, st5) => (Except.error e, st5)
          | (Except.ok _, st5) => (Except.ok (), st5))
    (fun st2 =>
      match dlookup (base oldP) st2.tags with
      | none => (Except.error PyErr.nameErr, st2)  -- KeyError; unreachable in this branch
      | some v =>
        (Except.ok (), { st2 with tags := dinsert (base newP) v (dremove (base oldP) st2.tags) }))

/-- `create(path, mode)`: file branch opens with `O_CREAT | O_TRUNC` (truncation
is invisible to the model); tag branch is `EEXIST`. -/
def create (st : St) (path : String) (ino : Nat) : Except PyErr Unit × St :=
  tags_operation st path
    (fun st2 =>
      if dmem (base path) st2.names then (Except.ok (), st2)
      else (Except.ok (), osNewEntry st2 (base path) ino))
    (fun st2 => (Except.error (PyErr.fuse Errno.EEXIST), st2))

/-- `mknod(path, mode, dev)`: file branch is a backing `os.mknod` (`EEXIST`
when the entry exists); the tag branch is the default `notsup`. -/
def mknod (st : St) (path : String) (ino : Nat) : Except PyErr Unit × St :=
  tags_operation st path
    (fun st2 =>
      if dmem (base path) st2.names then (Except.error (PyErr.ioerror Errno.EEXIST), st2)
      else (Except.ok (), osNewEntry st2 (base path) ino))
    notsup_fn

/-- `init(path)`: `self.tags = literal_eval(xattr('.').get('user.tagfs.tags'))`.
A missing root xattr raises `IOError(ENODATA)`; an unparsable value raises
`ValueError`.  There is no fallback. -/
def init (rootXattr : Option String) : Except PyErr (List (String × Stat)) :=
  match rootXattr with
  | none => Except.error (PyErr.ioerror Errno.ENODATA)
  | some s =>
    match parseReg s with
    | none => Except.error PyErr.valueErr
    | some d => Except.ok d

/-- `Tagfs.__call__`: an `EnvironmentError` (which includes `IOError` and
`FuseOSError` itself) is re-raised as `FuseOSError(err.errno)`; other
exceptions propagate unchanged. -/
def wrapErr : PyErr → PyErr
  | PyErr.ioerror e => PyErr.fuse e
  | PyErr.fuse e => PyErr.fuse e
  | e => e

/-- Apply the `__call__` exception translation to an operation's outcome. -/
def call (r : Except PyErr α × St) : Except PyErr α × St :=
  match r with
  | (Except.error e, st) => (Except.error (wrapErr e), st)
  | (Except.ok a, st) => (Except.ok a, st)

/-- `readdir` as dispatched through `__call__`. -/
def fuse_readdir (st : St) (path : String) : Except PyErr (List String) × St :=
  call (readdir st path)

/-- `mkdir` as dispatched through `__call__`. -/
def fuse_mkdir (st : St) (path : String) (fresh : Stat) : Except PyErr Unit × St :=
  call (mkdir st path fresh)

/-- `rmdir` as dispatched through `__call__`. -/
def fuse_rmdir (st : St) (path : String) : Except PyErr Unit × St :=
  call (rmdir st path)

/-- `rename` as dispatched through `__call__`. -/
def fuse_rename (st : St) (oldP newP : String) : Except PyErr Unit × St :=
  call (rename st oldP newP)

/-- `link` as dispatched through `__call__`. -/
def fuse_link (st : St) (lnk source : String) : Except PyErr Unit × St :=
  call (link st lnk source)

/-- `unlink` as dispatched through `__call__`. -/
def fuse_unlink (st : St) (path : String) : Except PyErr Unit × St :=
  call (unlink st path)

/-- `symlink` as dispatched through `__call__`. -/
def fuse_symlink (st : St) (lnk source : String) (ino : Nat) : Except PyErr Unit × St :=
  call (symlink st lnk source ino)

/-- `create` as dispatched through `__call__`. -/
def fuse_create (st : St) (path : String) (ino : Nat) : Except PyErr Unit × St :=
  call (create st path ino)

/-- `mknod` as dispatched through `__call__`. -/
def fuse_mknod (st : St) (path : String) (ino : Nat) : Except PyErr Unit × St :=
  call (mknod st path ino)

/-- `init` as dispatched through `__call__`. -/
def fuse_init (rootXattr : Option String) : Except PyErr (List (String × Stat)) :=
  match init rootXattr with
  | Except.error e => Except.error (wrapErr e)
  | Except.ok d => Except.ok d

/-- P6 dual-exclusion: no base name is simultaneously a registry tag and a
backing entry. -/
def dualExcl (st : St) : Prop := ∀ b ∈ dkeys st.tags, dmem b st.names = false

instance (st : St) : Decidable (dualExcl st) := by
  unfold dualExcl; infer_instance

theorem dlookup_dinsert_self [DecidableEq κ] (k : κ) (v : α) (d : List (κ × α)) :
    dlookup k (dinsert k v d) = some v := by
  induction d with
  | nil => simp [dinsert, dlookup]
  | cons hd t ih =>
    obtain ⟨k2, v2⟩ := hd
    by_cases hk : k2 = k
    · simp [dinsert, hk, dlookup]
    · simp [dinsert, hk, dlookup, ih]

theorem dlookup_dinsert_ne [DecidableEq κ] {k k2 : κ} (v : α) (d : List (κ × α))
    (h : k2 ≠ k) : dlookup k2 (dinsert k v d) = dlookup k2 d := by
  induction d with
  | nil =>
    simp only [dinsert, dlookup]
    rw [if_neg (fun hh => h hh.symm)]
  | cons hd t ih =>
    obtain ⟨k3, v3⟩ := hd
    simp only [dinsert]
    by_cases hk : k3 = k
    · subst hk
      rw [if_pos rfl]
      simp only [dlookup]
      rw [if_neg (fun hh => h hh.symm), if_neg (fun hh => h hh.symm)]
    · rw [if_neg hk]
      simp only [dlookup]
      by_cases hk2 : k3 = k2
      · rw [if_pos hk2, if_pos hk2]
      · rw [if_neg hk2, if_neg hk2, ih]

theorem dlookup_dremove_ne [DecidableEq κ] {k k2 : κ} (d : List (κ × α))
    (h : k2 ≠ k) : dlookup k2 (dremove k d) = dlookup k2 d := by
  induction d with
  | nil => rfl
  | cons hd t ih =>
    obtain ⟨k3, v3⟩ := hd
    simp only [dremove]
    by_cases hk : k3 = k
    · subst hk
      rw [if_pos rfl]
      simp only [dlookup]
      rw [if_neg (fun hh => h hh.symm)]
    · rw [if_neg hk]
      simp only [dlookup]
      by_cases hk2 : k3 = k2
      · rw [if_pos hk2, if_pos hk2]
      · rw [if_neg hk2, if_neg hk2, ih]

theorem dlookup_eq_none_of_not_mem [DecidableEq κ] {k : κ} {d : List (κ × α)}
    (h : k ∉ dkeys d) : dlookup k d = none := by
  induction d with
  | nil => rfl
  | cons hd t ih =>
    obtain ⟨k2, v2⟩ := hd
    simp only [dkeys, List.map_cons, List.mem_cons] at h
    push_neg at h
    simp only [dlookup]
    rw [if_neg (fun hh => h.1 hh.symm)]
    exact ih (by simpa [dkeys] using h.2)

theorem mem_dkeys_of_dlookup_isSome [DecidableEq κ] {k : κ} {d : List (κ × α)}
    (h : (dlookup k d).isSome = true) : k ∈ dkeys d := by
  by_contra hmem
  rw [dlookup_eq_none_of_not_mem hmem] at h
  simp at h

theorem dlookup_dremove_self [DecidableEq κ] {k : κ} (d : List (κ × α))
    (h : (dkeys d).Nodup) : dlookup k (dremove k d) = none := by
  induction d with
  | nil => rfl
  | cons hd t ih =>
    obtain ⟨k2, v2⟩ := hd
    simp only [dkeys, List.map_cons, List.nodup_cons] at h
    simp only [dremove]
    by_cases hk : k2 = k
    · subst hk
      rw [if_pos rfl]
      exact dlookup_eq_none_of_not_mem (by simpa [dkeys] using h.1)
    · rw [if_neg hk]
      simp only [dlookup]
      rw [if_neg hk]
      exact ih (by simpa [dkeys] using h.2)

theorem mem_dkeys_dinsert [DecidableEq κ] {b k : κ} (v : α) (d : List (κ × α)) :
    b ∈ dkeys (dinsert k v d) ↔ b = k ∨ b ∈ dkeys d := by
  induction d with
  | nil => simp [dinsert, dkeys]
  | cons hd t ih =>
    obtain ⟨k2, v2⟩ := hd
    simp only [dinsert]
    by_cases hk : k2 = k
    · subst hk
      rw [if_pos rfl]
      simp only [dkeys, List.map_cons, List.mem_cons]
      tauto
    · rw [if_neg hk]
      simp only [dkeys, List.map_cons, List.mem_cons]
      rw [show List.map Prod.fst (dinsert k v t) = dkeys (dinsert k v t) from rfl, ih]
      tauto

theorem dlookup_dinsert_isSome_of_isSome [DecidableEq κ] {k : κ} (v : α)
    {d : List (κ × α)} (hk : (dlookup k d).isSome = true) (j : κ) :
    (dlookup j (dinsert k v d)).isSome = (dlookup j d).isSome := by
  by_cases hj : j = k
  · subst hj
    rw [dlookup_dinsert_self, hk]
    rfl
  · rw [dlookup_dinsert_ne v d hj]

/-- The empty tag list round-trips to the empty decoded set. -/
theorem decodedTags_joinTags_nil : decodedTags ⟨some (joinTags [])⟩ = some ∅ := by decide

theorem fileTags_inv {st : St} {n : String} {ts : Finset String}
    (h : fileTags st n = some ts) :
    ∃ i ind, dlookup n st.names = some i ∧ dlookup i st.inodes = some ind ∧
      decodedTags ind = some ts := by
  unfold fileTags at h
  split at h
  · exact absurd h (by simp)
  · rename_i i hn
    split at h
    · exact absurd h (by simp)
    · rename_i ind hi
      exact ⟨i, ind, hn, hi, h⟩

theorem mem_dkeys_of_fileTags_some {st : St} {n : String} {ts : Finset String}
    (h : fileTags st n = some ts) : n ∈ dkeys st.names := by
  obtain ⟨i, _, hn, _, _⟩ := fileTags_inv h
  exact mem_dkeys_of_dlookup_isSome (by rw [hn]; rfl)

/-- Inversion for a successful `xattr2tags` read: it returns the pure decoded
tag set, does not touch names, registry, or root xattr, changes no file's
decoded tag set, and preserves which inodes exist. -/
theorem xattr2tags_ok {st st2 : St} {n : String} {ts : Finset String}
    (h : xattr2tags st n = (Except.ok ts, st2)) :
    fileTags st n = some ts ∧ st2.names = st.names ∧ st2.tags = st.tags ∧
    st2.rootXattr = st.rootXattr ∧ (∀ m, fileTags st2 m = fileTags st m) ∧
    (∀ j, (dlookup j st2.inodes).isSome = (dlookup j st.inodes).isSome) := by
  unfold xattr2tags at h
  split at h
  · exact absurd h (by simp)
  · rename_i i hn
    split at h
    · exact absurd h (by simp)
    · rename_i ind hi
      split at h
      · rename_i hu
        simp only [Prod.mk.injEq, Except.ok.injEq] at h
        obtain ⟨h1, h2⟩ := h
        subst h2
        refine ⟨?_, rfl, rfl, rfl, ?_, ?_⟩
        · unfold fileTags
          rw [hn]
          dsimp only
          rw [hi]
          dsimp only
          unfold decodedTags
          rw [hu, ← h1]
        · intro m
          unfold fileTags
          cases hm : dlookup m st.names with
          | none => rfl
          | some j =>
            dsimp only
            by_cases hj : j = i
            · subst hj
              rw [dlookup_dinsert_self, hi]
              dsimp only
              rw [decodedTags_joinTags_nil]
              unfold decodedTags
              rw [hu]
            · rw [dlookup_dinsert_ne _ _ hj]
        · intro j
          exact dlookup_dinsert_isSome_of_isSome _ (by rw [hi]; rfl) j
      · rename_i raw hu
        split at h
        · exact absurd h (by simp)
        · rename_i strs hd
          simp only [Prod.mk.injEq, Except.ok.injEq] at h
          obtain ⟨h1, h2⟩ := h
          subst h2
          refine ⟨?_, rfl, rfl, rfl, fun m => rfl, fun j => rfl⟩
          unfold fileTags
          rw [hn]
          dsimp only
          rw [hi]
          dsimp only
          unfold decodedTags
          rw [hu]
          dsimp only
          rw [hd]
          dsimp only
          rw [← h1]

/-- Inversion for a successful `set_tags_xattr`. -/
theorem set_tags_ok {st st2 : St} {n : String} {l : List String} {u : Unit}
    (h : set_tags_xattr st n l = (Except.ok u, st2)) :
    ∃ i, dlookup n st.names = some i ∧
      st2 = { st with inodes := dinsert i ⟨some (joinTags l)⟩ st.inodes } := by
  unfold set_tags_xattr at h
  split at h
  · exact absurd h (by simp)
  · rename_i i hn
    split at h
    · exact absurd h (by simp)
    · simp only [Prod.mk.injEq, Except.ok.injEq] at h
      exact ⟨i, hn, h.2.symm⟩

/-- The `__call__` wrapper is the identity on successful outcomes. -/
theorem call_ok {r : Except PyErr α × St} {a : α} {st2 : St} :
    call r = (Except.ok a, st2) ↔ r = (Except.ok a, st2) := by
  obtain ⟨r1, r2⟩ := r
  cases r1 <;> simp [call]

theorem dlookup_isSome_of_mem_dkeys [DecidableEq κ] {k : κ} {d : List (κ × α)}
    (h : k ∈ dkeys d) : (dlookup k d).isSome = true := by
  induction d with
  | nil => simp [dkeys] at h
  | cons hd t ih =>
    obtain ⟨k2, v2⟩ := hd
    simp only [dkeys, List.map_cons, List.mem_cons] at h
    simp only [dlookup]
    by_cases hk : k2 = k
    · rw [if_pos hk]; rfl
    · rw [if_neg hk]
      exact ih (by simpa [dkeys] using h.resolve_left (fun hh => hk hh.symm))

/-- An all-zero stat snapshot, used by the concrete witness states. -/
def stat0 : Stat := ⟨0, 0, 0, 0, 0, 0, 0, 0⟩

/-- Claim C10: at mount time `init` unconditionally reads and parses the
backing root's `user.tagfs.tags` xattr; a missing xattr or an unparsable
value makes `init` raise and the filesystem does not start — there is no
fallback that makes the registry empty. -/
theorem C10_init_strict (s : String) (hp : parseReg s = none) :
    fuse_init none = Except.error (PyErr.fuse Errno.ENODATA) ∧
    fuse_init (some s) = Except.error PyErr.valueErr := by
  refine ⟨rfl, ?_⟩
  unfold fuse_init init
  dsimp only
  rw [hp]
  rfl

theorem C10_init_strict_witness :
    parseReg "garbage" = none ∧
    (fuse_init none = Except.error (PyErr.fuse Errno.ENODATA) ∧
     fuse_init (some "garbage") = Except.error PyErr.valueErr) :=
  ⟨by decide, C10_init_strict "garbage" (by decide)⟩

/-- The concrete state used by the C5 counterexample: one tag `t`. -/
def stTag : St := ⟨[("t", stat0)], [], [], none⟩

/-- Claim C5 counterexample: `mknod` on a path whose final component names an
existing tag fails with ENOTSUP (the default tag branch), not with EEXIST as
the claim states for both operations. -/
theorem C5_create_mknod_cex :
    fuse_mknod stTag "/t" 5 = (Except.error (PyErr.fuse Errno.ENOTSUPP), stTag) ∧
    (fuse_mknod stTag "/t" 5).1 ≠ Except.error (PyErr.fuse Errno.EEXIST) := by
  decide

/-- Claim C5 (amended): when the final path component names an existing tag
(and the prefix components name existing tags), `create` fails with EEXIST but
`mknod` fails with ENOTSUP (its tag branch is the default `notsup`). -/
theorem C5_create_mknod_amended (st : St) (p : String) (ino1 ino2 : Nat)
    (hmem : dmem (base p) st.tags = true)
    (hsub : path2tags p ⊆ (dkeys st.tags).toFinset) :
    (fuse_create st p ino1).1 = Except.error (PyErr.fuse Errno.EEXIST) ∧
    (fuse_mknod st p ino2).1 = Except.error (PyErr.fuse Errno.ENOTSUPP) := by
  constructor
  · unfold fuse_create create tags_operation
    rw [hmem]
    simp only [if_true, if_pos hsub]
    rfl
  · unfold fuse_mknod mknod tags_operation
    rw [hmem]
    simp only [if_true, if_pos hsub]
    rfl

theorem C5_create_mknod_witness :
    dmem (base "/t") stTag.tags = true ∧
    path2tags "/t" ⊆ (dkeys stTag.tags).toFinset ∧
    ((fuse_create stTag "/t" 1).1 = Except.error (PyErr.fuse Errno.EEXIST) ∧
     (fuse_mknod stTag "/t" 2).1 = Except.error (PyErr.fuse Errno.ENOTSUPP)) :=
  ⟨by decide, by decide, C5_create_mknod_amended stTag "/t" 1 2 (by decide) (by decide)⟩

/-- The concrete state used by C6: one tag `red` and one file `foo` whose
`user.tags` xattr holds the empty encoding. -/
def stRedFoo : St := ⟨[("red", stat0)], [("foo", 1)], [(1, ⟨some (joinTags [])⟩)], none⟩

/-- Claim C6 (code bug): on a visible file branch, `unlink` raises `NameError`
— `os.unlink(real(source))` references the undefined name `source` — so the
backing file is never unlinked; the tag branch does fail with EISDIR. -/
theorem C6_unlink_run :
    fuse_unlink stRedFoo "/foo" = (Except.error PyErr.nameErr, stRedFoo) ∧
    fuse_unlink stRedFoo "/red" = (Except.error (PyErr.fuse Errno.EISDIR), stRedFoo) := by
  decide

/-- The concrete state used by the C2 counterexample: one tag `a`, with the
root xattr in sync. -/
def stC2cex : St := ⟨[("a", stat0)], [], [], some (serializeReg [("a", stat0)])⟩

/-- Claim C2 counterexample: a successful tag-branch `rename` (here `/a` to
`/b`) mutates the registry without calling `update_fs_xattr`, so afterwards
the in-memory registry no longer equals the serialized root xattr. -/
theorem C2_registry_xattr_cex :
    (fuse_rename stC2cex "/a" "/b").1 = Except.ok () ∧
    (fuse_rename stC2cex "/a" "/b").2.rootXattr
      ≠ some (serializeReg (fuse_rename stC2cex "/a" "/b").2.tags) := by
  decide

/-- Claim C2 (amended): after every successful `mkdir` (tag insertion) and
every successful `rmdir` (tag removal) the in-memory registry equals the
value serialized in the backing root's `user.tagfs.tags` xattr; the
tag-branch of `rename` however mutates the registry without persisting it. -/
theorem C2_registry_xattr_amended (stA stB stA2 stB2 : St) (p q : String) (fresh : Stat)
    (h1 : fuse_mkdir stA p fresh = (Except.ok (), stA2))
    (h2 : fuse_rmdir stB q = (Except.ok (), stB2)) :
    stA2.rootXattr = some (serializeReg stA2.tags) ∧
    stB2.rootXattr = some (serializeReg stB2.tags) := by
  constructor
  · unfold fuse_mkdir at h1
    rw [call_ok] at h1
    unfold mkdir at h1
    split at h1
    · split at h1
      · exact absurd h1 (by simp)
      · simp only [Prod.mk.injEq] at h1
        rw [← h1.2]
        rfl
    · exact absurd h1 (by simp)
  · unfold fuse_rmdir at h2
    rw [call_ok] at h2
    unfold rmdir tags_operation at h2
    dsimp only at h2
    split at h2
    · split at h2
      · split at h2
        · exact absurd h2 (by simp)
        · exact absurd h2 (by simp)
        · simp only [Prod.mk.injEq] at h2
          rw [← h2.2]
          rfl
      · exact absurd h2 (by simp)
    · split at h2
      · exact absurd h2 (by simp)
      · split at h2
        · split at h2
          · exact absurd h2 (by simp)
          · exact absurd h2 (by simp)
        · exact absurd h2 (by simp)

theorem C2_registry_xattr_witness :
    ((⟨[("red", stat0)], [], [], some (serializeReg [("red", stat0)])⟩ : St).rootXattr
      = some (serializeReg [("red", stat0)]) ∧
     (⟨[], [], [], some (serializeReg [])⟩ : St).rootXattr
      = some (serializeReg ([] : List (String × Stat)))) :=
  C2_registry_xattr_amended ⟨[], [], [], none⟩ ⟨[("red", stat0)], [], [], none⟩
    ⟨[("red", stat0)], [], [], some (serializeReg [("red", stat0)])⟩
    ⟨[], [], [], some (serializeReg [])⟩ "/red" "/red" stat0 (by decide) (by decide)

/-- The concrete state used by the C9 counterexample: file `f` whose
`user.tags` xattr holds an undecodable byte. -/
def stBadByte : St := ⟨[], [("f", 1)], [(1, ⟨some [B.bad 255]⟩)], none⟩

/-- Claim C9 counterexample: a `user.tags` value that fails UTF-8 decoding
makes `xattr2tags` raise `UnicodeDecodeError` (only `IOError` is caught): the
empty set is not returned and the xattr is not rewritten. -/
theorem C9_read_tags_cex :
    xattr2tags stBadByte "f" = (Except.error PyErr.unicodeErr, stBadByte) ∧
    (xattr2tags stBadByte "f").1 ≠ Except.ok ∅ := by
  decide

/-- Claim C9 (amended): reading a file's tags when its `user.tags` xattr is
missing returns the empty set and initializes the xattr to the empty
encoding; but a value that fails UTF-8 decoding raises `UnicodeDecodeError`
(which the `except IOError` handler does not catch) and leaves the state
unchanged. -/
theorem C9_read_tags_amended (st : St) (n : String) (i : Nat) (ind : Inode)
    (h1 : dlookup n st.names = some i)
    (h2 : dlookup i st.inodes = some ind) :
    (ind.userTags = none →
      xattr2tags st n
        = (Except.ok ∅, { st with inodes := dinsert i ⟨some (joinTags [])⟩ st.inodes })) ∧
    (∀ raw, ind.userTags = some raw → (splitComma raw).mapM decodeStr = none →
      xattr2tags st n = (Except.error PyErr.unicodeErr, st)) := by
  constructor
  · intro hu
    unfold xattr2tags
    rw [h1]
    dsimp only
    rw [h2]
    dsimp only
    rw [hu]
  · intro raw hu hd
    unfold xattr2tags
    rw [h1]
    dsimp only
    rw [h2]
    dsimp only
    rw [hu]
    dsimp only
    rw [hd]

theorem C9_read_tags_witness :
    (((⟨[], [("f", 1)], [(1, ⟨none⟩)], none⟩ : St) : St).names = [("f", 1)]) ∧
    ((Inode.mk none).userTags = none →
      xattr2tags ⟨[], [("f", 1)], [(1, ⟨none⟩)], none⟩ "f"
        = (Except.ok ∅, { (⟨[], [("f", 1)], [(1, ⟨none⟩)], none⟩ : St) with
            inodes := dinsert 1 ⟨some (joinTags [])⟩ [(1, ⟨none⟩)] })) ∧
    (∀ raw, (Inode.mk none).userTags = some raw →
      (splitComma raw).mapM decodeStr = none →
      xattr2tags ⟨[], [("f", 1)], [(1, ⟨none⟩)], none⟩ "f"
        = (Except.error PyErr.unicodeErr, ⟨[], [("f", 1)], [(1, ⟨none⟩)], none⟩)) :=
  ⟨rfl,
   (C9_read_tags_amended ⟨[], [("f", 1)], [(1, ⟨none⟩)], none⟩ "f" 1 ⟨none⟩
      (by decide) (by decide)).1,
   (C9_read_tags_amended ⟨[], [("f", 1)], [(1, ⟨none⟩)], none⟩ "f" 1 ⟨none⟩
      (by decide) (by decide)).2⟩

/-- After a successful `xattr2tags` on `n`, the backing entry `n` exists. -/
theorem dmem_of_xattr2tags_ok {st stx : St} {n : String} {ts : Finset String}
    (hx : xattr2tags st n = (Except.ok ts, stx)) :
    dmem n stx.names = true := by
  obtain ⟨hft, hnames, -, -, -, -⟩ := xattr2tags_ok hx
  rw [hnames]
  exact dlookup_isSome_of_mem_dkeys (mem_dkeys_of_fileTags_some hft)

/-- The raw `symlink` can never succeed: the guard reads the xattr of the
link name being created (`IOError(ENOENT)` when no such backing entry
exists), while an existing entry makes the backing `os.symlink` fail with
EEXIST, and a tag-name collision is EEXIST before that. -/
theorem symlink_raw_fails (st : St) (lnk source : String) (ino : Nat) :
    ∃ e st2, symlink st lnk source ino = (Except.error e, st2) := by
  unfold symlink
  by_cases h1 : lnk = ""
  · rw [if_pos h1]
    exact ⟨_, _, rfl⟩
  · rw [if_neg h1]
    by_cases h2 : source = ""
    · rw [if_pos h2]
      exact ⟨_, _, rfl⟩
    · rw [if_neg h2]
      cases hx : xattr2tags st (base lnk) with
      | mk r stx =>
        cases r with
        | error e =>
          exact ⟨e, stx, rfl⟩
        | ok ts =>
          dsimp only
          by_cases hsub : path2tags lnk ⊆ ts
          · rw [if_pos hsub]
            by_cases htag : dmem (base lnk) stx.tags = true
            · rw [if_pos htag]
              exact ⟨_, _, rfl⟩
            · rw [if_neg htag, if_pos (dmem_of_xattr2tags_ok hx)]
              exact ⟨_, _, rfl⟩
          · rw [if_neg hsub]
            exact ⟨_, _, rfl⟩

/-- The raw `mknod` can never succeed: the visibility check requires the
backing entry to exist (else ENOENT), and then `os.mknod` fails with EEXIST;
a tag-branch call is ENOTSUP. -/
theorem mknod_raw_fails (st : St) (p : String) (ino : Nat) :
    ∃ e st2, mknod st p ino = (Except.error e, st2) := by
  unfold mknod tags_operation notsup_fn
  dsimp only
  by_cases hmem : dmem (base p) st.tags = true
  · rw [if_pos hmem]
    by_cases hsub : path2tags p ⊆ (dkeys st.tags).toFinset
    · rw [if_pos hsub]
      exact ⟨_, _, rfl⟩
    · rw [if_neg hsub]
      exact ⟨_, _, rfl⟩
  · rw [if_neg hmem]
    cases hx : xattr2tags st (base p) with
    | mk r stx =>
      cases r with
      | error e =>
        exact ⟨e, stx, rfl⟩
      | ok ts =>
        dsimp only
        by_cases hsub : path2tags p ⊆ ts
        · rw [if_pos hsub, if_pos (dmem_of_xattr2tags_ok hx)]
          exact ⟨_, _, rfl⟩
        · rw [if_neg hsub]
          exact ⟨_, _, rfl⟩

/-- Claim C7 (code bug): `symlink` never succeeds, for any state and any
arguments, so in particular the claimed success case (fresh link name with
existing prefix tags) is unreachable; the claimed EEXIST case is also
reachable only when a backing entry shadows the tag name. -/
theorem C7_symlink_never_succeeds (st : St) (lnk source : String) (ino : Nat) :
    ∃ e st2, fuse_symlink st lnk source ino = (Except.error e, st2) := by
  obtain ⟨e, st2, he⟩ := symlink_raw_fails st lnk source ino
  refine ⟨wrapErr e, st2, ?_⟩
  unfold fuse_symlink
  rw [he]
  rfl

/-- Claim C3 counterexample: from a state satisfying dual-exclusion, one
successful `link('/red', '/foo')` — classified only on its source path —
hard-links the backing file `foo` to the name `red`, which is an existing
tag: afterwards `red` is both a registry tag and a backing file name. -/
theorem C3_dual_exclusion_cex :
    dualExcl stRedFoo ∧
    (fuse_link stRedFoo "/red" "/foo").1 = Except.ok () ∧
    dmem "red" (fuse_link stRedFoo "/red" "/foo").2.tags = true ∧
    dmem "red" (fuse_link stRedFoo "/red" "/foo").2.names = true ∧
    ¬ dualExcl (fuse_link stRedFoo "/red" "/foo").2 := by
  decide

/-- Claim C3 (amended): `mkdir`, `create`, `mknod` and `symlink` preserve
dual-exclusion (`mkdir` rejects a backing-name collision, `create` can only
truncate an existing visible file, and `mknod` and `symlink` never succeed at
all); the claim fails for `link`, which classifies only its source path and
can hard-link a backing file onto an existing tag name, and `rename`, whose
two branches can likewise move a base name across the divide. -/
theorem C3_dual_exclusion_amended
    (st st1 st2 st3 st4 : St) (p1 p2 p3 p4 src : String)
    (fresh : Stat) (i2 i3 i4 : Nat)
    (hinv : dualExcl st) :
    (fuse_mkdir st p1 fresh = (Except.ok (), st1) → dualExcl st1) ∧
    (fuse_create st p2 i2 = (Except.ok (), st2) → dualExcl st2) ∧
    (fuse_mknod st p3 i3 = (Except.ok (), st3) → dualExcl st3) ∧
    (fuse_symlink st p4 src i4 = (Except.ok (), st4) → dualExcl st4) := by
  refine ⟨?_, ?_, ?_, ?_⟩
  · intro h
    unfold fuse_mkdir at h
    rw [call_ok] at h
    unfold mkdir at h
    split at h
    · split at h
      · exact absurd h (by simp)
      · rename_i hmem
        simp only [Prod.mk.injEq] at h
        rw [← h.2]
        intro b hb
        have hb2 : b = base p1 ∨ b ∈ dkeys st.tags := (mem_dkeys_dinsert _ _).1 hb
        show dmem b st.names = false
        cases hb2 with
        | inl hb2 =>
          subst hb2
          cases hq : dmem (base p1) st.names with
          | false => rfl
          | true => exact absurd hq hmem
        | inr hb2 => exact hinv b hb2
    · exact absurd h (by simp)
  · intro h
    unfold fuse_create at h
    rw [call_ok] at h
    unfold create tags_operation at h
    dsimp only at h
    split at h
    · split at h
      · exact absurd h (by simp)
      · exact absurd h (by simp)
    · split at h
      · exact absurd h (by simp)
      · rename_i ts stx hx
        split at h
        · split at h
          · simp only [Prod.mk.injEq] at h
            obtain ⟨hft, hnames, htags, -, -, -⟩ := xattr2tags_ok hx
            rw [← h.2]
            intro b hb
            rw [htags] at hb
            rw [hnames]
            exact hinv b hb
          · rename_i hmem2
            exact absurd (dmem_of_xattr2tags_ok hx) hmem2
        · exact absurd h (by simp)
  · intro h
    obtain ⟨e, stx, he⟩ := mknod_raw_fails st p3 i3
    unfold fuse_mknod at h
    rw [he] at h
    exact absurd h (by simp [call])
  · intro h
    obtain ⟨e, stx, he⟩ := symlink_raw_fails st p4 src i4
    unfold fuse_symlink at h
    rw [he] at h
    exact absurd h (by simp [call])

theorem C3_dual_exclusion_witness :
    (fuse_mkdir stRedFoo "/blue" stat0
        = (Except.ok (),
           ⟨[("red", stat0), ("blue", stat0)], [("foo", 1)], [(1, ⟨some (joinTags [])⟩)],
            some (serializeReg [("red", stat0), ("blue", stat0)])⟩) →
      dualExcl ⟨[("red", stat0), ("blue", stat0)], [("foo", 1)], [(1, ⟨some (joinTags [])⟩)],
            some (serializeReg [("red", stat0), ("blue", stat0)])⟩) ∧
    (fuse_create stRedFoo "/foo" 2 = (Except.ok (), stRedFoo) → dualExcl stRedFoo) ∧
    (fuse_mknod stRedFoo "/bar" 3 = (Except.ok (), stRedFoo) → dualExcl stRedFoo) ∧
    (fuse_symlink stRedFoo "/baz" "t" 4 = (Except.ok (), stRedFoo) → dualExcl stRedFoo) :=
  C3_dual_exclusion_amended stRedFoo
    ⟨[("red", stat0), ("blue", stat0)], [("foo", 1)], [(1, ⟨some (joinTags [])⟩)],
      some (serializeReg [("red", stat0), ("blue", stat0)])⟩
    stRedFoo stRedFoo stRedFoo "/blue" "/foo" "/bar" "/baz" "t" stat0 2 3 4 (by decide)

/-- Inversion for a successful `filterFiles` pass: no file's decoded tag set
changes, and a name is kept iff it is listed and its decoded tag set (in the
starting state) contains `T`. -/
theorem filterFiles_ok {T : Finset String} {ns : List String} {st st2 : St}
    {l : List String} (h : filterFiles T ns st = (Except.ok l, st2)) :
    (∀ m, fileTags st2 m = fileTags st m) ∧
    (∀ s, s ∈ l ↔ s ∈ ns ∧ ∃ ts, fileTags st s = some ts ∧ T ⊆ ts) := by
  induction ns generalizing st l with
  | nil =>
    unfold filterFiles at h
    simp only [Prod.mk.injEq, Except.ok.injEq] at h
    obtain ⟨h1, h2⟩ := h
    subst h2
    subst h1
    exact ⟨fun m => rfl, fun s => by simp⟩
  | cons n rest ih =>
    unfold filterFiles at h
    split at h
    · exact absurd h (by simp)
    · rename_i ts stx hx
      split at h
      · exact absurd h (by simp)
      · rename_i l2 st3 hr
        simp only [Prod.mk.injEq, Except.ok.injEq] at h
        obtain ⟨h1, h2⟩ := h
        subst h2
        obtain ⟨hft, -, -, -, hall, -⟩ := xattr2tags_ok hx
        obtain ⟨ihall, ihmem⟩ := ih hr
        refine ⟨fun m => (ihall m).trans (hall m), fun s => ?_⟩
        rw [← h1]
        by_cases hTs : T ⊆ ts
        · rw [if_pos hTs]
          simp only [List.mem_cons]
          constructor
          · rintro (rfl | hs)
            · exact ⟨Or.inl rfl, ts, hft, hTs⟩
            · obtain ⟨hsrest, ts2, hts2, hT2⟩ := (ihmem s).1 hs
              rw [hall s] at hts2
              exact ⟨Or.inr hsrest, ts2, hts2, hT2⟩
          · rintro ⟨hmem, ts2, hts2, hT2⟩
            cases hmem with
            | inl hsn => exact Or.inl hsn
            | inr hsrest =>
              refine Or.inr ((ihmem s).2 ⟨hsrest, ts2, ?_, hT2⟩)
              rw [hall s]
              exact hts2
        · rw [if_neg hTs]
          simp only [List.mem_cons]
          constructor
          · intro hs
            obtain ⟨hsrest, ts2, hts2, hT2⟩ := (ihmem s).1 hs
            rw [hall s] at hts2
            exact ⟨Or.inr hsrest, ts2, hts2, hT2⟩
          · rintro ⟨hmem, ts2, hts2, hT2⟩
            cases hmem with
            | inl hsn =>
              subst hsn
              rw [hft] at hts2
              cases hts2
              exact absurd hT2 hTs
            | inr hsrest =>
              refine (ihmem s).2 ⟨hsrest, ts2, ?_, hT2⟩
              rw [hall s]
              exact hts2

/-- Claim C1: a successful `readdir` on `path` returns exactly `.` and `..`,
every registry tag not in `T`, and every backing filename whose decoded
on-disk tag set is a superset of `T`, where `T` is empty at the root and
otherwise contains all path components including the final one (the current
directory's own tag, hence "not equal to the own tag" is subsumed by "not in
`T`"). -/
theorem C1_readdir_listing {st st2 : St} {path : String} {l : List String}
    (h : fuse_readdir st path = (Except.ok l, st2)) (s : String) :
    s ∈ l ↔ s = "." ∨ s = ".." ∨
      (s ∈ dkeys st.tags ∧ s ∉ readdirT path) ∨
      (∃ ts, fileTags st s = some ts ∧ readdirT path ⊆ ts) := by
  unfold fuse_readdir at h
  rw [call_ok] at h
  unfold readdir at h
  split at h
  · exact absurd h (by simp)
  · rename_i fl stx hf
    simp only [Prod.mk.injEq, Except.ok.injEq] at h
    obtain ⟨h1, h2⟩ := h
    obtain ⟨-, hmem⟩ := filterFiles_ok hf
    rw [← h1]
    simp only [List.mem_cons, List.mem_append, List.mem_filter, decide_eq_true_eq]
    constructor
    · rintro (rfl | rfl | ⟨htag, hnotT⟩ | hfl)
      · exact Or.inl rfl
      · exact Or.inr (Or.inl rfl)
      · exact Or.inr (Or.inr (Or.inl ⟨htag, hnotT⟩))
      · obtain ⟨-, hex⟩ := (hmem s).1 hfl
        exact Or.inr (Or.inr (Or.inr hex))
    · rintro (rfl | rfl | ⟨htag, hnotT⟩ | ⟨ts, hts, hsub⟩)
      · exact Or.inl rfl
      · exact Or.inr (Or.inl rfl)
      · exact Or.inr (Or.inr (Or.inl ⟨htag, hnotT⟩))
      · exact Or.inr (Or.inr (Or.inr ((hmem s).2
          ⟨mem_dkeys_of_fileTags_some hts, ts, hts, hsub⟩)))

/-- The state used by the C1 witness: tag `red`, file `foo` tagged `red`. -/
def stC1w : St := ⟨[("red", stat0)], [("foo", 1)], [(1, ⟨some (joinTags ["red"])⟩)], none⟩

theorem C1_readdir_listing_witness :
    "foo" ∈ [".", "..", "foo"] ↔ "foo" = "." ∨ "foo" = ".." ∨
      ("foo" ∈ dkeys stC1w.tags ∧ "foo" ∉ readdirT "/red") ∨
      (∃ ts, fileTags stC1w "foo" = some ts ∧ readdirT "/red" ⊆ ts) :=
  @C1_readdir_listing stC1w stC1w "/red" [".", "..", "foo"] (by decide) "foo"

/-- The formula the code computes, `(cur \ to_remove) ∪ to_add`, equals the
claim's `(cur ∪ to_add) \ to_remove` (the two difference sets are disjoint). -/
theorem tag_formula_comm (cur A Bn : Finset String) :
    (cur \ (A \ Bn)) ∪ (Bn \ A) = (cur ∪ (Bn \ A)) \ (A \ Bn) := by
  ext x
  simp only [Finset.mem_union, Finset.mem_sdiff]
  tauto

/-- Under the precondition `A ⊆ cur`, the rename formula collapses to P4's
`(cur \ A) ∪ Bn`. -/
theorem tag_formula_precond (cur A Bn : Finset String) (h : A ⊆ cur) :
    (cur ∪ (Bn \ A)) \ (A \ Bn) = (cur \ A) ∪ Bn := by
  ext x
  have hx : x ∈ A → x ∈ cur := fun hh => h hh
  simp only [Finset.mem_union, Finset.mem_sdiff]
  tauto

/-- Claim C4: a successful file-branch `rename(old, new)` rebinds the backing
file of `base old` — same inode — to `base new`, and sets its `user.tags`
xattr to the encoding of `(current ∪ to_add) \ to_remove` where
`to_remove = path2tags old \ path2tags new` and
`to_add = path2tags new \ path2tags old`; the precondition
`path2tags old ⊆ current` is enforced by `tags_operation`, and under it the
stored set equals P4's `(current \ path2tags old) ∪ path2tags new`. -/
theorem C4_rename_file_branch {st st2 : St} {oldP newP : String}
    (hnt : dmem (base oldP) st.tags = false)
    (hnd : (dkeys st.names).Nodup)
    (h : fuse_rename st oldP newP = (Except.ok (), st2)) :
    ∃ i cur,
      dlookup (base oldP) st.names = some i ∧
      fileTags st (base oldP) = some cur ∧
      path2tags oldP ⊆ cur ∧
      dlookup (base newP) st2.names = some i ∧
      (base oldP ≠ base newP → dlookup (base oldP) st2.names = none) ∧
      dlookup i st2.inodes = some ⟨some (joinTags (sortTags
        ((cur ∪ (path2tags newP \ path2tags oldP))
          \ (path2tags oldP \ path2tags newP))))⟩ ∧
      (cur ∪ (path2tags newP \ path2tags oldP)) \ (path2tags oldP \ path2tags newP)
        = (cur \ path2tags oldP) ∪ path2tags newP := by
  unfold fuse_rename at h
  rw [call_ok] at h
  unfold rename tags_operation at h
  dsimp only at h
  split at h
  · rename_i hmem
    rw [hnt] at hmem
    exact absurd hmem (by simp)
  · split at h
    · exact absurd h (by simp)
    · rename_i ts stx hx
      split at h
      · rename_i hsub
        obtain ⟨hft, hnames, htags, hroot, hall, hsome⟩ := xattr2tags_ok hx
        obtain ⟨i, ind0, hio, hii0, hdec0⟩ := fileTags_inv hft
        have hio2 : dlookup (base oldP) stx.names = some i := by
          rw [hnames]; exact hio
        have hos : osRename stx (base oldP) (base newP)
            = (Except.ok (),
               { stx with names := dinsert (base newP) i (dremove (base oldP) stx.names) }) := by
          unfold osRename
          rw [hio2]
        rw [hos] at h
        dsimp only at h
        split at h
        · exact absurd h (by simp)
        · rename_i cur st4 hx2
          obtain ⟨hft2, hnames2, -, -, -, -⟩ := xattr2tags_ok hx2
          -- the renamed binding still points at inode `i`, whose decoded tags
          -- are unchanged, so `cur` is the original decoded tag set `ts`
          obtain ⟨i2, ind2, hio3, hii2, hdec2⟩ :=
            fileTags_inv (show fileTags stx (base oldP) = some ts by rw [hall]; exact hft)
          have hi2 : i2 = i := by
            rw [hio2] at hio3
            exact (Option.some.inj hio3).symm
          rw [hi2] at hii2
          have hft3 : fileTags
              { stx with names := dinsert (base newP) i (dremove (base oldP) stx.names) }
              (base newP) = some ts := by
            unfold fileTags
            rw [show dlookup (base newP)
                ({ stx with names := dinsert (base newP) i (dremove (base oldP) stx.names) }
                  : St).names = some i from dlookup_dinsert_self _ _ _]
            dsimp only
            rw [hii2]
            dsimp only
            exact hdec2
          have hcur : cur = ts := by
            rw [hft2] at hft3
            exact Option.some.inj hft3.symm |>.symm
          split at h
          · exact absurd h (by simp)
          · rename_i u st5 hset
            rw [hcur] at hset
            simp only [Prod.mk.injEq, Except.ok.injEq] at h
            obtain ⟨-, h2⟩ := h
            obtain ⟨j, hj, hst5⟩ := set_tags_ok hset
            have hj2 : j = i := by
              rw [hnames2, dlookup_dinsert_self] at hj
              exact (Option.some.inj hj).symm
            rw [hj2] at hst5
            rw [← h2, hst5]
            refine ⟨i, ts, hio, hft, hsub, ?_, ?_, ?_,
              tag_formula_precond ts (path2tags oldP) (path2tags newP) hsub⟩
            · show dlookup (base newP) st4.names = some i
              rw [hnames2]
              exact dlookup_dinsert_self _ _ _
            · intro hne
              show dlookup (base oldP) st4.names = none
              rw [hnames2]
              dsimp only
              rw [dlookup_dinsert_ne _ _ hne]
              refine dlookup_dremove_self _ ?_
              rw [hnames]
              exact hnd
            · show dlookup i (dinsert i
                  ⟨some (joinTags (sortTags ((ts \ (path2tags oldP \ path2tags newP))
                    ∪ (path2tags newP \ path2tags oldP))))⟩ st4.inodes)
                = some ⟨some (joinTags (sortTags
                    ((ts ∪ (path2tags newP \ path2tags oldP))
                      \ (path2tags oldP \ path2tags newP))))⟩
              rw [← tag_formula_comm ts (path2tags oldP) (path2tags newP)]
              exact dlookup_dinsert_self _ _ _
      · exact absurd h (by simp)

/-- The state used by the C4 witness: untagged registry, file `f` (inode 1)
tagged `a`; renaming `/a/f` to `/b/g` retags it from `a` to `b`. -/
def stC4w : St := ⟨[], [("f", 1)], [(1, ⟨some (joinTags ["a"])⟩)], none⟩

theorem C4_rename_file_branch_witness :
    ∃ i cur,
      dlookup (base "/a/f") stC4w.names = some i ∧
      fileTags stC4w (base "/a/f") = some cur ∧
      path2tags "/a/f" ⊆ cur ∧
      dlookup (base "/b/g")
        (⟨[], [("g", 1)], [(1, ⟨some (joinTags ["b"])⟩)], none⟩ : St).names = some i ∧
      (base "/a/f" ≠ base "/b/g" →
        dlookup (base "/a/f")
          (⟨[], [("g", 1)], [(1, ⟨some (joinTags ["b"])⟩)], none⟩ : St).names = none) ∧
      dlookup i (⟨[], [("g", 1)], [(1, ⟨some (joinTags ["b"])⟩)], none⟩ : St).inodes
        = some ⟨some (joinTags (sortTags
            ((cur ∪ (path2tags "/b/g" \ path2tags "/a/f"))
              \ (path2tags "/a/f" \ path2tags "/b/g"))))⟩ ∧
      (cur ∪ (path2tags "/b/g" \ path2tags "/a/f"))
          \ (path2tags "/a/f" \ path2tags "/b/g")
        = (cur \ path2tags "/a/f") ∪ path2tags "/b/g" :=
  @C4_rename_file_branch stC4w
    ⟨[], [("g", 1)], [(1, ⟨some (joinTags ["b"])⟩)], none⟩ "/a/f" "/b/g"
    (by decide) (by decide) (by decide)

/-- Fresh-mount state for the C8 scenario. -/
def st8a : St := ⟨[], [], [], some (serializeReg [])⟩

/-- State after `mkdir /red` in the C8 scenario. -/
def st8b : St := ⟨[("red", stat0)], [], [], some (serializeReg [("red", stat0)])⟩

/-- State after `mkdir /red; mkdir /big` in the C8 scenario. -/
def st8c : St := ⟨[("red", stat0), ("big", stat0)], [], [],
  some (serializeReg [("red", stat0), ("big", stat0)])⟩

/-- Claim C8 (code bug): from a fresh mount, `mkdir /red` and `mkdir /big`
succeed, but `create /red/foo` fails with ENOENT — `tags_operation` reads the
`user.tags` xattr of the not-yet-existing backing file `./foo` — so no file is
created, nothing is tagged, and `readdir /red` lists only `.`, `..` and the
other tag. -/
theorem C8_scenario_run :
    fuse_mkdir st8a "/red" stat0 = (Except.ok (), st8b) ∧
    fuse_mkdir st8b "/big" stat0 = (Except.ok (), st8c) ∧
    fuse_create st8c "/red/foo" 1 = (Except.error (PyErr.fuse Errno.ENOENT), st8c) ∧
    fuse_readdir st8c "/red" = (Except.ok [".", "..", "big"], st8c) := by
  decide

end Tagfs
